import Mathlib

/-!
Shallow embedding of the copymaker measurement-and-transformation pipeline
(`src/backend`), and proofs checking the natural-language specification
against it.

Conventions of the embedding:
* Python strings are modelled as `PyStr := List Char`; Python float
  arithmetic is idealised as exact arithmetic over `ℚ` (and `ℝ` where
  `math.sqrt` is involved).
* Randomness (`random.random`, `random.randint`, `random.sample`,
  `random.choice`) is passed in as explicit oracle parameters; theorems
  assume exactly the documented contract of the corresponding library
  call (e.g. `random.random() ∈ [0,1)`).
* Calls to the external rewriting collaborator (`OpenAIClient`) are
  passed in as function parameters; their replies are unconstrained.
* Python operations that can raise (`/`, `math.sqrt`, `max`/`min` of an
  empty list) are modelled with `Option` where a claim is about
  totality.
-/

namespace CopyMaker

/-- A Python string, modelled as its list of characters. -/
abbrev PyStr := List Char

/-! ### Generic Python string helpers -/

/-- Characters matched by Python's `\s` / stripped by `str.strip()`:
space and the control range tab..carriage-return, i.e. codes 32 and
9-13 (ASCII whitespace; exotic Unicode whitespace is not modelled). -/
def isPySpace (c : Char) : Bool :=
  c.toNat == 32 || (9 ≤ c.toNat && c.toNat ≤ 13)

/-- Python `str.strip()`. -/
def pyStrip (s : PyStr) : PyStr :=
  ((s.dropWhile isPySpace).reverse.dropWhile isPySpace).reverse

/-- Collapse every whitespace run to a single `' '`
(the effect of `re.sub(r"\s+", " ", ·)` on a stripped string). -/
def collapseWs : PyStr → PyStr
  | [] => []
  | [c] => if isPySpace c then [' '] else [c]
  | c :: d :: rest =>
    if isPySpace c && isPySpace d then collapseWs (d :: rest)
    else (if isPySpace c then ' ' else c) :: collapseWs (d :: rest)

/-- Python `re.sub(r"\s+", " ", text.strip())` (korean.py line 55). -/
def normalizeWs (s : PyStr) : PyStr := collapseWs (pyStrip s)

/-- Worker for `str.split()` (whitespace tokenisation, empties dropped). -/
def splitWsGo : PyStr → PyStr → List PyStr
  | [], acc => if acc.isEmpty then [] else [acc.reverse]
  | c :: rest, acc =>
    if isPySpace c then
      if acc.isEmpty then splitWsGo rest [] else acc.reverse :: splitWsGo rest []
    else splitWsGo rest (c :: acc)

/-- Python `str.split()` with no argument. -/
def pySplitWs (s : PyStr) : List PyStr := splitWsGo s []

/-- Python `len(s.split())`, the word count used throughout the transformers. -/
def wordCount (s : PyStr) : Nat := (pySplitWs s).length

/-- Python `" ".join(l)`. -/
def joinSpace (l : List PyStr) : PyStr := List.intercalate [' '] l

/-- Python `str.lower()` (ASCII case folding). -/
def pyLower (s : PyStr) : PyStr := s.map Char.toLower

/-! ### Sentence segmentation (`KoreanNLP.split_sentences`, korean.py 37-78) -/

/-- Sentence-final punctuation `[.?!]`. -/
def isTermPunct (c : Char) : Bool := c == '.' || c == '?' || c == '!'

/-- The Korean sentence endings `[다요죠네까]` of the primary pattern. -/
def isKoEnding (c : Char) : Bool :=
  c == '다' || c == '요' || c == '죠' || c == '네' || c == '까'

/-- The lookahead class `[A-Z가-힣"]` of the primary pattern. -/
def isUpperKoQuote (c : Char) : Bool :=
  ('A' ≤ c && c ≤ 'Z') || (0xAC00 ≤ c.toNat && c.toNat ≤ 0xD7A3) || c == '"'

/-- Split a whitespace-normalised string at the primary pattern
`(?<=[.?!])\s+|(?<=[다요죠네까])\s+(?=[A-Z가-힣"])`.  After
normalisation every whitespace run is a single `' '`, so a separator is
a space preceded by terminal punctuation, or a space preceded by a
Korean ending and followed by an uppercase/Korean/quote character.  The
accumulator holds the current fragment reversed, so its head is the
previous character. -/
def sentSplitGo : PyStr → PyStr → List PyStr
  | [], acc => [acc.reverse]
  | c :: rest, acc =>
    if c == ' ' && (match acc with | p :: _ => isTermPunct p | [] => false) then
      acc.reverse :: sentSplitGo rest []
    else if c == ' ' && (match acc with | p :: _ => isKoEnding p | [] => false)
        && (match rest with | n :: _ => isUpperKoQuote n | [] => false) then
      acc.reverse :: sentSplitGo rest []
    else
      sentSplitGo rest (c :: acc)

/-- Split at the alternative pattern `(?<=[.?!])\s+` (korean.py line 74). -/
def altSplitGo : PyStr → PyStr → List PyStr
  | [], acc => [acc.reverse]
  | c :: rest, acc =>
    if c == ' ' && (match acc with | p :: _ => isTermPunct p | [] => false) then
      acc.reverse :: altSplitGo rest []
    else
      altSplitGo rest (c :: acc)

/-- Fragments of the primary pattern after stripping and filtering
(`if s and len(s) > 1`, korean.py 65-69). -/
def primaryFragments (t : PyStr) : List PyStr :=
  ((sentSplitGo t []).map pyStrip).filter (fun s => !s.isEmpty && s.length > 1)

/-- Fragments of the alternative pattern after stripping and filtering
(`[s.strip() for s in raw_sentences if s.strip()]`, korean.py 76). -/
def altFragments (t : PyStr) : List PyStr :=
  ((altSplitGo t []).map pyStrip).filter (fun s => !s.isEmpty)

/-- Embedding of `KoreanNLP.split_sentences` (korean.py 37-78).  `if not text or not
text.strip()` collapses to the single test `strip text = []` because an
empty string strips to itself. -/
def splitSentences (text : PyStr) : List PyStr :=
  if (pyStrip text).isEmpty then []
  else
    let t := normalizeWs text
    let sents := primaryFragments t
    let sents :=
      if sents.length ≤ 1 && t.length > 100 then altFragments t else sents
    if sents.isEmpty then [t] else sents

/-! ### Text metrics (`TextMetrics`, metrics.py) -/

/-- Embedding of `TextMetrics._mean` (metrics.py 97-101). -/
def meanQ (values : List ℚ) : ℚ :=
  if values = [] then 0 else values.sum / values.length

/-- Embedding of `TextMetrics._variance` (metrics.py 103-108), population variance. -/
def varQ (values : List ℚ) : ℚ :=
  if values.length < 2 then 0
  else ((values.map (fun x => (x - meanQ values) ^ 2)).sum) / values.length

/-- Embedding of `TextMetrics._std` (metrics.py 110-112), `math.sqrt` idealised as
the exact real square root. -/
noncomputable def stdR (values : List ℚ) : ℝ := Real.sqrt (varQ values)

/-- Round an integer-scaled real half to even, like Python's `round`. -/
noncomputable def roundHalfEven (x : ℝ) : ℤ :=
  if Int.fract x = 1 / 2 then (if Even ⌊x⌋ then ⌊x⌋ else ⌊x⌋ + 1) else round x

/-- Python `round(x, n)` (banker's rounding at the `n`-th decimal). -/
noncomputable def pyRound (x : ℝ) (n : ℕ) : ℝ :=
  (roundHalfEven (x * 10 ^ n) : ℝ) / 10 ^ n

/-- The number of distinct tokens, i.e. `len(Counter(words))`. -/
def distinctCount (words : List PyStr) : ℕ := words.dedup.length

/-- The values of `Counter(words)`: one occurrence count per distinct
token (the order is irrelevant to the statistics computed from them). -/
def freqValues (words : List PyStr) : List ℚ :=
  words.dedup.map (fun w => (words.count w : ℚ))

/-- Embedding of `TextMetrics._calculate_burstiness` (metrics.py 114-146). -/
noncomputable def burstinessR (words : List PyStr) : ℝ :=
  if words = [] then 0
  else
    let freqs := freqValues words
    if freqs.length < 2 then 0
    else
      let μ : ℝ := (meanQ freqs : ℚ)
      let σ : ℝ := stdR freqs
      if μ + σ = 0 then 0 else (σ - μ) / (σ + μ)

/-- Result record of `TextMetrics.analyze_uniformity`.  The flag is a
proposition (the Python `bool` `uniformity_score > 0.7`). -/
structure UniformityResult where
  coefficient_of_variation : ℝ
  uniformity_score : ℝ
  is_suspicious : Prop

/-- The coefficient of variation of a sentence-length list as computed
at metrics.py 184-188 (`std / mean if mean > 0 else 0`). -/
noncomputable def cvOf (sentenceLengths : List ℕ) : ℝ :=
  let ls : List ℚ := sentenceLengths.map (fun (n : ℕ) => (n : ℚ))
  if (meanQ ls : ℚ) > 0 then stdR ls / (meanQ ls : ℚ) else 0

/-- Embedding of `TextMetrics.analyze_uniformity` (metrics.py 167-202).  For fewer
than 2 lengths it returns the fixed record of lines 177-182; otherwise
it rounds `cv` and the score to 4 decimals for the returned dict while
computing `is_suspicious` from the unrounded score (lines 192-201). -/
noncomputable def analyzeUniformity (sentenceLengths : List ℕ) : UniformityResult :=
  if sentenceLengths.length < 2 then
    { coefficient_of_variation := 0, uniformity_score := 1, is_suspicious := False }
  else
    let cv := cvOf sentenceLengths
    let score := max 0 (1 - cv)
    { coefficient_of_variation := pyRound cv 4
      uniformity_score := pyRound score 4
      is_suspicious := score > 0.7 }

/-- The metrics dict returned by `TextMetrics.calculate`. -/
structure MetricsDict where
  word_count : ℕ
  sentence_count : ℕ
  avg_sentence_length : ℝ
  sentence_length_std : ℝ
  sentence_length_variance : ℝ
  sentence_length_range : ℕ
  vocabulary_diversity : ℝ
  burstiness : ℝ
  sentence_lengths : List ℕ

/-- Embedding of `TextMetrics.calculate` (metrics.py 19-61) on the defined paths. -/
noncomputable def calculateP (text : PyStr) (sentences : List PyStr) : MetricsDict :=
  let sentenceLengths := sentences.map wordCount
  let lsQ : List ℚ := sentenceLengths.map (fun (n : ℕ) => (n : ℚ))
  let words := pySplitWs (pyLower text)
  { word_count := (pySplitWs text).length
    sentence_count := sentences.length
    avg_sentence_length :=
      pyRound (((if lsQ = [] then 0 else meanQ lsQ) : ℚ) : ℝ) 2
    sentence_length_std := pyRound (if lsQ = [] then 0 else stdR lsQ) 2
    sentence_length_variance :=
      pyRound (((if lsQ = [] then 0 else varQ lsQ) : ℚ) : ℝ) 2
    sentence_length_range :=
      if sentenceLengths = [] then 0
      else (sentenceLengths.max?.getD 0) - (sentenceLengths.min?.getD 0)
    vocabulary_diversity :=
      pyRound (((if words = [] then 0
        else (words.dedup.length : ℚ) / (words.length : ℚ)) : ℚ) : ℝ) 4
    burstiness := pyRound (burstinessR words) 4
    sentence_lengths := sentenceLengths }

/-! #### `Option`-valued variant of `calculate`, modelling the raising
operations (`/` by zero, `math.sqrt` of a negative, `max`/`min` of an
empty list) for the totality claim. -/

/-- Division, raising `ZeroDivisionError` on a zero denominator. -/
def safeDivQ (a b : ℚ) : Option ℚ := if b = 0 then none else some (a / b)

/-- Python `math.sqrt`, raising `ValueError` on a negative argument. -/
noncomputable def safeSqrt (x : ℚ) : Option ℝ :=
  if x < 0 then none else some (Real.sqrt x)

/-- Variant of `_mean` with the raising division explicit. -/
def meanM (values : List ℚ) : Option ℚ :=
  if values = [] then some 0 else safeDivQ values.sum values.length

/-- Variant of `_variance` with the raising division explicit. -/
def varM (values : List ℚ) : Option ℚ :=
  if values.length < 2 then some 0
  else
    (meanM values).bind fun m =>
      safeDivQ ((values.map (fun x => (x - m) ^ 2)).sum) values.length

/-- Variant of `_std` with the raising operations explicit. -/
noncomputable def stdM (values : List ℚ) : Option ℝ :=
  (varM values).bind fun v => safeSqrt v

open scoped Classical in
/-- Variant of `_calculate_burstiness` with the raising division explicit. -/
noncomputable def burstinessM (words : List PyStr) : Option ℝ :=
  if words = [] then some 0
  else
    let freqs := freqValues words
    if freqs.length < 2 then some 0
    else
      (meanM freqs).bind fun m =>
      (stdM freqs).bind fun s =>
      if ((m : ℝ) + s) = 0 then some 0
      else if ((s : ℝ) + m) = 0 then none else some ((s - m) / (s + m))

/-- The `max(...) - min(...)` computation for a non-empty length list,
with the raising `max`/`min` calls explicit. -/
def rangeM (sentenceLengths : List ℕ) : Option ℕ :=
  if sentenceLengths = [] then some 0
  else
    sentenceLengths.max?.bind fun mx =>
    sentenceLengths.min?.bind fun mn =>
    some (mx - mn)

open scoped Classical in
/-- `TextMetrics.calculate` (metrics.py 19-61) with every raising
operation modelled in `Option`; `none` means a Python exception. -/
noncomputable def calculateM (text : PyStr) (sentences : List PyStr) :
    Option MetricsDict :=
  let sentenceLengths := sentences.map wordCount
  let lsQ : List ℚ := sentenceLengths.map (fun (n : ℕ) => (n : ℚ))
  let words := pySplitWs (pyLower text)
  (if lsQ = [] then some (0 : ℚ) else meanM lsQ).bind fun avgLength =>
  (if lsQ = [] then some (0 : ℝ) else stdM lsQ).bind fun lengthStd =>
  (if words = [] then some (0 : ℚ)
    else safeDivQ (words.dedup.length : ℚ) (words.length : ℚ)).bind fun diversity =>
  (burstinessM words).bind fun burst =>
  (if lsQ = [] then some (0 : ℚ) else varM lsQ).bind fun lengthVariance =>
  (rangeM sentenceLengths).bind fun lengthRange =>
  some
    { word_count := (pySplitWs text).length
      sentence_count := sentences.length
      avg_sentence_length := pyRound (avgLength : ℚ) 2
      sentence_length_std := pyRound lengthStd 2
      sentence_length_variance := pyRound (lengthVariance : ℚ) 2
      sentence_length_range := lengthRange
      vocabulary_diversity := pyRound (diversity : ℚ) 4
      burstiness := pyRound burst 4
      sentence_lengths := sentenceLengths }

/-! ### Rewriting collaborator client (`OpenAIClient`, openai_client.py) -/

/-- Hexadecimal digit value through character codes (48-57 are the
digits, 97-102 lower-case a-f, 65-70 upper-case A-F), `none` for a
non-hex character. -/
def hexVal (c : Char) : Option ℕ :=
  let n := c.toNat
  if 48 ≤ n && n ≤ 57 then some (n - 48)
  else if 97 ≤ n && n ≤ 102 then some (n - 87)
  else if 65 ≤ n && n ≤ 70 then some (n - 55)
  else none

/-- JSON whitespace: codes 32 (space), 9 (tab), 10 (LF), 13 (CR). -/
def isJsonWs (c : Char) : Bool :=
  c.toNat == 32 || c.toNat == 9 || c.toNat == 10 || c.toNat == 13

/-- The decoded character of a single-character JSON escape, `none`
when the escape is `\u` or invalid. -/
def escChar (e : Char) : Option Char :=
  if e == 'n' then some '\n'
  else if e == 't' then some '\t'
  else if e == 'r' then some '\r'
  else if e == 'b' then some '\x08'
  else if e == 'f' then some '\x0c'
  else if e == '"' then some '"'
  else if e == '/' then some '/'
  else if e == '\\' then some '\\'
  else none

/-- Four hex digits after a `\u` escape, decoded to a code point with
the rest of the input. -/
def hex4 (cs : PyStr) : Option (ℕ × PyStr) :=
  match cs with
  | h1 :: h2 :: h3 :: h4 :: rest =>
    match hexVal h1, hexVal h2, hexVal h3, hexVal h4 with
    | some a, some b, some c, some d =>
      some (((a * 16 + b) * 16 + c) * 16 + d, rest)
    | _, _, _, _ => none
  | _ => none

/-- Parse the body of a JSON string after the opening quote, returning
the decoded content and the rest of the input after the closing quote.
`fuel` bounds the recursion by the input length. -/
def parseJsonStringBody : ℕ → PyStr → Option (PyStr × PyStr)
  | 0, _ => none
  | _, [] => none
  | fuel + 1, c :: rest =>
    if c == '"' then some ([], rest)
    else if c == '\\' then
      match rest with
      | [] => none
      | e :: rest2 =>
        let esc : Option (Char × PyStr) :=
          if e == 'u' then
            match hex4 rest2 with
            | some (n, rest3) =>
              if n.isValidChar then some (Char.ofNat n, rest3) else none
            | none => none
          else
            match escChar e with
            | some ch => some (ch, rest2)
            | none => none
        match esc with
        | none => none
        | some (ch, rest3) => do
          let (s, rem) ← parseJsonStringBody fuel rest3
          some (ch :: s, rem)
    else do
      let (s, rem) ← parseJsonStringBody fuel rest
      some (c :: s, rem)

/-- Parse the elements of a JSON array of strings after the opening
bracket (first element not yet consumed). -/
def parseJsonArrayElems : ℕ → PyStr → Option (List PyStr × PyStr)
  | 0, _ => none
  | fuel + 1, input =>
    match input.dropWhile isJsonWs with
    | ']' :: rest => some ([], rest)
    | '"' :: rest => do
      let (s, rem) ← parseJsonStringBody (fuel + 1) rest
      match rem.dropWhile isJsonWs with
      | ',' :: rest2 => do
        let more ← parseJsonArrayElems fuel rest2
        match more.1 with
        | [] => none
        | _ => some (s :: more.1, more.2)
      | ']' :: rest2 => some ([s], rest2)
      | _ => none
    | _ => none

/-- Python `json.loads` restricted to JSON arrays of strings; any other input
(including arrays with non-string elements) is treated as a parse
failure.  The replies the claims exercise are arrays of strings. -/
def parseJsonStrArray (s : PyStr) : Option (List PyStr) :=
  match s.dropWhile isJsonWs with
  | '[' :: rest => do
    let (elems, rem) ← parseJsonArrayElems (s.length + 1) rest
    if (rem.dropWhile isJsonWs).isEmpty then some elems else none
  | _ => none

/-- Python `str.split("\n")` (empties kept). -/
def splitOnNewline : PyStr → List PyStr
  | [] => [[]]
  | c :: rest =>
    if c == '\n' then [] :: splitOnNewline rest
    else
      match splitOnNewline rest with
      | [] => [[c]]
      | f :: fs => (c :: f) :: fs

/-- Embedding of `OpenAIClient.split_sentence` (openai_client.py 59-77).  `reply` is
the collaborator's raw completion; `transform_text` strips it (line 43).
If the stripped reply starts with `[` it is parsed as JSON (line 71-72),
a parse failure returning the original sentence (line 76-77); otherwise
it is split on newlines, stripped and filtered (line 75). -/
def splitSentenceImpl (reply : PyStr) (sentence : PyStr) : List PyStr :=
  let result := pyStrip reply
  if result.head? = some '[' then
    match parseJsonStrArray result with
    | some l => l
    | none => [sentence]
  else
    ((splitOnNewline result).map pyStrip).filter (fun s => !s.isEmpty)

/-! ### Structural transformer (`StructureTransformer`, structure.py) -/

/-- The four decision outcomes of `_decide_action`. -/
inductive SAction where
  | split
  | merge
  | paraphrase
  | keep
deriving DecidableEq, Repr

/-- Threshold `split_threshold = 0.3 * intensity` (structure.py 107). -/
def splitThreshold (intensity : ℚ) : ℚ := 3 / 10 * intensity

/-- Threshold `merge_threshold = split_threshold + 0.2 * intensity` (line 108). -/
def mergeThreshold (intensity : ℚ) : ℚ :=
  splitThreshold intensity + 2 / 10 * intensity

/-- Threshold `paraphrase_threshold = merge_threshold + 0.3 * intensity` (line 109). -/
def paraphraseThreshold (intensity : ℚ) : ℚ :=
  mergeThreshold intensity + 3 / 10 * intensity

/-- Embedding of `StructureTransformer._decide_action` (structure.py 93-118), with
the draw of `random.random()` passed in as `r`. -/
def decideAction (wc : ℕ) (intensity r : ℚ) : SAction :=
  if wc > 20 ∧ r < splitThreshold intensity then .split
  else if wc < 10 ∧ r < mergeThreshold intensity then .merge
  else if r < paraphraseThreshold intensity then .paraphrase
  else .keep

/-- The rewriting-collaborator calls made by `StructureTransformer`,
passed in as oracles.  `splitS` models `self.openai.split_sentence`,
`mergeS` models `self.openai.merge_sentences`, `paraS` models
`self._paraphrase_structure`. -/
structure StructOracles where
  splitS : PyStr → List PyStr
  mergeS : PyStr → PyStr → PyStr
  paraS : PyStr → PyStr

/-- The per-sentence `while` loop of `StructureTransformer.transform`
(structure.py 53-82).  `rs k` is the `random.random()` draw of the
`k`-th loop iteration; the cursor over the original sentence list is
the recursion on the list itself. -/
def structLoop (O : StructOracles) (intensity : ℚ) (rs : ℕ → ℚ) :
    ℕ → List PyStr → List PyStr
  | _, [] => []
  | k, s :: rest =>
    let wc := wordCount s
    let action := decideAction wc intensity (rs k)
    if action = .split ∧ wc > 12 then
      O.splitS s ++ structLoop O intensity rs (k + 1) rest
    else if action = .merge ∧ rest ≠ [] then
      match rest with
      | [] => [s]
      | next :: rest2 => O.mergeS s next :: structLoop O intensity rs (k + 1) rest2
    else if action = .paraphrase then
      O.paraS s :: structLoop O intensity rs (k + 1) rest
    else
      s :: structLoop O intensity rs (k + 1) rest

/-- The parallel assignment
`middle[idx1], middle[idx2] = middle[idx2], middle[idx1]`:
both right-hand sides are read from the original list, then assigned. -/
def pySwap (l : List PyStr) (i j : ℕ) : List PyStr :=
  (l.set i (l.getD j [])).set j (l.getD i [])

/-- One iteration of the swap loop of `_partial_reorder`
(structure.py 158-163): indices are drawn only `if len(middle) >= 2`,
and the swap is a no-op when the same index is drawn twice. -/
def applyDraw (draw : ℕ × ℕ) (l : List PyStr) : List PyStr :=
  if 2 ≤ l.length then (if draw.1 ≠ draw.2 then pySwap l draw.1 draw.2 else l)
  else l

/-- The `for _ in range(num_swaps)` loop: `draws k` is the pair of
`random.randint(0, len(middle) - 1)` draws of iteration `k`. -/
def swapLoop (draws : ℕ → ℕ × ℕ) : ℕ → ℕ → List PyStr → List PyStr
  | _, 0, l => l
  | k, n + 1, l => swapLoop draws (k + 1) n (applyDraw (draws k) l)

/-- Python `int(q)` as an iteration count: Python's `range(int(q))` performs
`⌊q⌋.toNat` iterations for every real `q` (negative counts iterate
zero times, matching truncation toward zero composed with `range`). -/
def pyLoopCount (q : ℚ) : ℕ := ⌊q⌋.toNat

/-- Count `num_swaps = int(len(middle) * intensity * 0.5)` (structure.py 156). -/
def numSwaps (middleLen : ℕ) (intensity : ℚ) : ℕ :=
  pyLoopCount ((middleLen : ℚ) * intensity * (1 / 2))

/-- Embedding of `StructureTransformer._partial_reorder` (structure.py 137-165). -/
def partialReorder (draws : ℕ → ℕ × ℕ) (intensity : ℚ)
    (sentences : List PyStr) : List PyStr :=
  if sentences.length ≤ 3 then sentences
  else
    let first := sentences.take 1
    let last := sentences.drop (sentences.length - 1)
    let middle := (sentences.drop 1).dropLast
    first ++ swapLoop draws 0 (numSwaps middle.length intensity) middle ++ last

/-- The post-loop reorder gate of `transform` (structure.py 85-89). -/
def maybeReorder (draws : ℕ → ℕ × ℕ) (intensity : ℚ)
    (ts : List PyStr) : List PyStr :=
  if intensity > 6 / 10 ∧ ts.length > 3 then partialReorder draws intensity ts
  else ts

/-- Embedding of `StructureTransformer.transform` (structure.py 28-91).  The
single-sentence branch delegates to `_split_long_text` (lines 43-47,
120-123), which joins `O.splitS text` with spaces. -/
def structTransform (O : StructOracles) (draws : ℕ → ℕ × ℕ)
    (intensity : ℚ) (rs : ℕ → ℚ) (text : PyStr) : PyStr :=
  let sentences := splitSentences text
  if sentences.length ≤ 1 then
    if wordCount text > 15 then joinSpace (O.splitS text) else text
  else
    joinSpace (maybeReorder draws intensity (structLoop O intensity rs 0 sentences))

/-! ### Vocabulary transformer: colloquial insertion
(`VocabularyTransformer._add_colloquial_touches`, vocabulary.py 147-171) -/

/-- Embedding of `VocabularyTransformer.COLLOQUIAL_INSERTIONS` (vocabulary.py 52-63). -/
def COLLOQUIAL_INSERTIONS : List PyStr :=
  [['사', '실'], ['물', '론'], ['솔', '직', '히'], ['확', '실', '히'],
   ['분', '명', '히'], ['아', '무', '래', '도'], ['어', '쨌', '든'],
   ['결', '국'], ['실', '제', '로'], ['정', '말', '로']]

/-- Python `f"{insertion}, {sentence[0].lower()}{sentence[1:]}" if sentence
else sentence` (vocabulary.py 169). -/
def prependMarker (marker sentence : PyStr) : PyStr :=
  match sentence with
  | [] => []
  | c :: rest => marker ++ [',', ' '] ++ (Char.toLower c :: rest)

/-- One iteration of the `for pos in positions` loop
(vocabulary.py 163-169): the sentence at `pos` is updated only if it
does not already start with one of the discourse markers. -/
def colloquialStep (marker : PyStr) (pos : ℕ) (sentences : List PyStr) : List PyStr :=
  let sentence := sentences.getD pos []
  if COLLOQUIAL_INSERTIONS.any (fun c => c.isPrefixOf sentence) then sentences
  else sentences.set pos (prependMarker marker sentence)

/-- The `for pos in positions` loop; `pick j` is the
`random.choice(self.COLLOQUIAL_INSERTIONS)` draw of iteration `j`. -/
def colloquialLoop (pick : ℕ → PyStr) : ℕ → List ℕ → List PyStr → List PyStr
  | _, [], sentences => sentences
  | j, pos :: more, sentences =>
    colloquialLoop pick (j + 1) more (colloquialStep (pick j) pos sentences)

/-- Count `num_insertions = max(1, int(len(sentences) * intensity * 0.3))`
(vocabulary.py 155).  `int` truncates toward zero; composed with
`max 1` this agrees with `max 1 ∘ pyLoopCount`. -/
def numInsertions (sentenceCount : ℕ) (intensity : ℚ) : ℕ :=
  max 1 (pyLoopCount ((sentenceCount : ℚ) * intensity * (3 / 10)))

/-- The sample size passed to `random.sample` (vocabulary.py 158-161):
`min(num_insertions, len(sentences) - 1)`. -/
def colloquialSampleSize (sentenceCount : ℕ) (intensity : ℚ) : ℕ :=
  min (numInsertions sentenceCount intensity) (sentenceCount - 1)

/-- Embedding of `VocabularyTransformer._add_colloquial_touches`
(vocabulary.py 147-171).  `sample lo hi k` models
`random.sample(range(lo, hi), k)`. -/
def addColloquialTouches (sample : ℕ → ℕ → ℕ → List ℕ) (pick : ℕ → PyStr)
    (intensity : ℚ) (text : PyStr) : PyStr :=
  let sentences := splitSentences text
  if sentences.length < 2 then text
  else
    let k := colloquialSampleSize sentences.length intensity
    let positions := sample 1 sentences.length k
    joinSpace (colloquialLoop pick 0 positions sentences)

/-! ### Pipeline entry point (`transform_text`, main.py 139-212) -/

/-- The request's `options` (main.py 42-45); the Python field
`structure` is renamed `structureOpt` (Lean keyword). -/
structure TransformOptions where
  structureOpt : Bool
  vocabulary : Bool
  noise : Bool

/-- Embedding of `MetricsResult` (main.py 54-61). -/
structure MetricsResult where
  original_sentence_count : ℕ
  transformed_sentence_count : ℕ
  original_avg_length : ℝ
  transformed_avg_length : ℝ
  original_length_std : ℝ
  transformed_length_std : ℝ
  vocabulary_diversity_change : ℝ

/-- Embedding of `TransformResponse` (main.py 64-68). -/
structure TransformResponse where
  original : PyStr
  transformed : PyStr
  metrics : MetricsResult
  applied_transforms : List String

/-- The `/api/transform` handler body (main.py 149-212), with the three
stage transformers passed in as functions of the current text and the
request intensity. -/
noncomputable def transformText (structF vocabF noiseF : PyStr → ℚ → PyStr)
    (opts : TransformOptions) (intensity : ℚ) (text : PyStr) : TransformResponse :=
  let originalSentences := splitSentences text
  let originalMetrics := calculateP text originalSentences
  let t1 := if opts.structureOpt then structF text intensity else text
  let a1 := if opts.structureOpt then ["structure"] else []
  let t2 := if opts.vocabulary then vocabF t1 intensity else t1
  let a2 := a1 ++ if opts.vocabulary then ["vocabulary"] else []
  let t3 := if opts.noise then noiseF t2 intensity else t2
  let a3 := a2 ++ if opts.noise then ["noise"] else []
  let transformedSentences := splitSentences t3
  let transformedMetrics := calculateP t3 transformedSentences
  { original := text
    transformed := t3
    metrics :=
      { original_sentence_count := originalSentences.length
        transformed_sentence_count := transformedSentences.length
        original_avg_length := originalMetrics.avg_sentence_length
        transformed_avg_length := transformedMetrics.avg_sentence_length
        original_length_std := originalMetrics.sentence_length_std
        transformed_length_std := transformedMetrics.sentence_length_std
        vocabulary_diversity_change :=
          transformedMetrics.vocabulary_diversity -
            originalMetrics.vocabulary_diversity }
    applied_transforms := a3 }

/-! ### Spec-side definitions used for refinement comparison -/

/-- Modelled from the spec's wording of the structural decision policy
(claim C3): first matching rule wins, with the merge rule requiring a
next sentence to exist and a failed merge rule falling through to the
paraphrase rule.  This definition follows the claim, not the source; it
is compared against `decideAction`/`structLoop`. -/
def specClaimedAction (wc : ℕ) (hasNext : Bool) (intensity r : ℚ) : SAction :=
  if wc > 20 ∧ r < splitThreshold intensity then .split
  else if wc < 10 ∧ r < mergeThreshold intensity ∧ hasNext then .merge
  else if r < paraphraseThreshold intensity then .paraphrase
  else .keep

/-! ## Theorems -/

/-! ### Generic helper lemmas -/

/-- Python `range(int(q))` iterates `⌊q⌋₊` times. -/
theorem pyLoopCount_eq_natFloor (q : ℚ) : pyLoopCount q = ⌊q⌋₊ :=
  Int.floor_toNat q

/-- The fallback `sentences if sentences else [text]` is never empty. -/
theorem ite_isEmpty_ne_nil (t : PyStr) (l : List PyStr) :
    (if l.isEmpty then [t] else l) ≠ [] := by
  by_cases h : l.isEmpty
  · simp [h]
  · rw [if_neg h]
    exact fun hc => h (List.isEmpty_iff.mpr hc)

/-- Rounding fixes zero. -/
theorem pyRound_zero (n : ℕ) : pyRound 0 n = 0 := by
  have h0 : roundHalfEven 0 = 0 := by
    rw [roundHalfEven, if_neg (by norm_num [Int.fract_zero]), round_zero]
  simp [pyRound, h0]

/-- Rounding fixes one. -/
theorem pyRound_one (n : ℕ) : pyRound 1 n = 1 := by
  have hfr : Int.fract ((1 : ℝ) * 10 ^ n) ≠ 1 / 2 := by
    rw [one_mul]
    have : ((10 ^ n : ℤ) : ℝ) = (10 : ℝ) ^ n := by push_cast; ring
    rw [← this, Int.fract_intCast]
    norm_num
  have hr : round ((1 : ℝ) * 10 ^ n) = 10 ^ n := by
    rw [one_mul]
    have : ((10 ^ n : ℤ) : ℝ) = (10 : ℝ) ^ n := by push_cast; ring
    rw [← this, round_intCast]
  rw [pyRound, roundHalfEven, if_neg hfr, hr]
  have hpow : ((10 : ℝ) ^ n) ≠ 0 := by positivity
  push_cast
  field_simp

/-! ### C4 — sentence segmentation never empty (corrected) -/

/-- C4 counterexample: the whitespace-only input `" "` is a non-empty
string, yet `split_sentences` returns the empty list (the early return
at korean.py 51-52), contradicting the claim's "never returns an empty
list for non-empty input (including whitespace-only input)". -/
theorem split_sentences_whitespace_counterexample :
    ([' '] : PyStr) ≠ [] ∧ splitSentences [' '] = [] := by decide

/-- C4 (amended): `split_sentences` returns a non-empty list for every
input with non-whitespace content; for empty or whitespace-only input
it returns the empty list.  When the primary pattern yields no fragment
and no retry applies, the whole normalised text is returned as a
single-element list, and likewise when the long-text retry also yields
nothing. -/
theorem split_sentences_nonempty_amended (text : PyStr) :
    (pyStrip text ≠ [] → splitSentences text ≠ []) ∧
    (pyStrip text = [] → splitSentences text = []) ∧
    (pyStrip text ≠ [] → primaryFragments (normalizeWs text) = [] →
      ¬((normalizeWs text).length > 100) → splitSentences text = [normalizeWs text]) ∧
    (pyStrip text ≠ [] → (primaryFragments (normalizeWs text)).length ≤ 1 →
      (normalizeWs text).length > 100 → altFragments (normalizeWs text) = [] →
      splitSentences text = [normalizeWs text]) := by
  unfold splitSentences
  refine ⟨?_, ?_, ?_, ?_⟩
  · intro h
    rw [if_neg (by simpa [List.isEmpty_iff] using h)]
    exact ite_isEmpty_ne_nil _ _
  · intro h
    rw [if_pos (by simpa [List.isEmpty_iff] using h)]
  · intro h h1 h2
    rw [if_neg (by simpa [List.isEmpty_iff] using h)]
    simp [h1, h2]
  · intro h h1 h2 h3
    rw [if_neg (by simpa [List.isEmpty_iff] using h)]
    simp [h1, h2, h3]

/-- C4 witness: a concrete input with content yields a non-empty
result. -/
theorem split_sentences_nonempty_witness :
    pyStrip ['a'] ≠ [] ∧ splitSentences ['a'] ≠ [] :=
  ⟨by decide, (split_sentences_nonempty_amended ['a']).1 (by decide)⟩

/-! ### C1 — uniformity analysis (corrected) -/

/-- C1 counterexample: for the empty sentence-length list (and any
single-element list) `analyze_uniformity` returns uniformity score 1.0,
which exceeds 0.7, yet `is_suspicious` is `False` (metrics.py 177-182),
so the claimed iff fails for lists with fewer than 2 elements. -/
theorem analyze_uniformity_counterexample :
    (analyzeUniformity []).uniformity_score > 0.7 ∧
    ¬(analyzeUniformity []).is_suspicious := by
  constructor
  · rw [analyzeUniformity, if_pos (by decide)]
    norm_num
  · rw [analyzeUniformity, if_pos (by decide)]
    exact not_false

/-- C1 (amended): for every sentence-length list with at least 2
elements, the returned uniformity score is (the 4-decimal rounding of)
`max(0, 1 − CV)` and `is_suspicious` holds iff `max(0, 1 − CV) > 0.7`;
for lists with fewer than 2 elements the returned score is `1.0` and
`is_suspicious` is false. -/
theorem analyze_uniformity_amended (ls : List ℕ) :
    (ls.length < 2 →
      (analyzeUniformity ls).uniformity_score = 1 ∧
      (analyzeUniformity ls).coefficient_of_variation = 0 ∧
      ¬(analyzeUniformity ls).is_suspicious) ∧
    (2 ≤ ls.length →
      ((analyzeUniformity ls).is_suspicious ↔ max 0 (1 - cvOf ls) > 0.7) ∧
      (analyzeUniformity ls).uniformity_score = pyRound (max 0 (1 - cvOf ls)) 4 ∧
      (analyzeUniformity ls).coefficient_of_variation = pyRound (cvOf ls) 4) := by
  constructor
  · intro h
    rw [analyzeUniformity, if_pos h]
    exact ⟨rfl, rfl, not_false⟩
  · intro h
    rw [analyzeUniformity, if_neg (by omega)]
    exact ⟨Iff.rfl, rfl, rfl⟩

/-- C1 witness: the equal-length list `[5, 5]` has CV 0, score 1 and is
flagged suspicious (the spec's own test case). -/
theorem analyze_uniformity_witness :
    2 ≤ ([5, 5] : List ℕ).length ∧ (analyzeUniformity [5, 5]).is_suspicious := by
  have hls : (([5, 5] : List ℕ).map (fun (n : ℕ) => (n : ℚ))) = [(5 : ℚ), 5] := by
    simp
  have hmean : meanQ [(5 : ℚ), 5] = 5 := by
    rw [meanQ, if_neg (by simp)]
    norm_num
  have hvar : varQ [(5 : ℚ), 5] = 0 := by
    rw [varQ, if_neg (by simp)]
    simp [hmean]
  have hstd : stdR [(5 : ℚ), 5] = 0 := by
    rw [stdR, hvar]
    simp
  have hcv : cvOf [5, 5] = 0 := by
    unfold cvOf
    dsimp only
    rw [hls, if_pos (by rw [hmean]; norm_num), hstd]
    simp
  refine ⟨by decide, ?_⟩
  refine (((analyze_uniformity_amended [5, 5]).2 (by decide)).1).mpr ?_
  rw [hcv]
  norm_num

/-! ### C2 — `split_sentence` can return zero items and the split
branch then drops the sentence (code bug) -/

/-- C2: the collaborator reply `"[]"` is parsed by `split_sentence`
into the empty list (openai_client.py 71-72 — `json.loads("[]")`
succeeds, so the `[sentence]` fallback of line 77 is not taken), and
the structural transformer's split branch (structure.py 62-63) then
extends the output with zero sentences: a 21-word sentence that is
chosen for a split (intensity 1, draw 0) vanishes from the output. -/
theorem split_sentence_empty_reply_drops_sentence :
    splitSentenceImpl "[]".data ['h', 'i'] = [] ∧
    decideAction (wordCount (joinSpace (List.replicate 21 ['w']))) 1 0 = .split ∧
    structLoop
      ⟨fun s => splitSentenceImpl "[]".data s, fun a b => a ++ b, fun s => s⟩
      1 (fun _ => 0) 0 [joinSpace (List.replicate 21 ['w'])] = [] := by
  have hwc : wordCount (joinSpace (List.replicate 21 ['w'])) = 21 := by decide
  have hcond : wordCount (joinSpace (List.replicate 21 ['w'])) > 20 ∧
      (0 : ℚ) < splitThreshold 1 := by
    refine ⟨by rw [hwc]; norm_num, by norm_num [splitThreshold]⟩
  have hact : decideAction (wordCount (joinSpace (List.replicate 21 ['w']))) 1 0
      = .split := by
    rw [decideAction, if_pos hcond]
  refine ⟨by decide, hact, ?_⟩
  simp only [structLoop]
  rw [if_pos ⟨hact, by rw [hwc]; norm_num⟩]
  simp only [structLoop, List.append_nil]
  decide

/-! ### C3 — structural decision policy (corrected) -/

/-- One step of the per-sentence loop, characterised by the decided
action and whether a next sentence exists. -/
theorem structLoop_cons_eq (O : StructOracles) (i : ℚ) (rs : ℕ → ℚ)
    (k : ℕ) (s : PyStr) (rest : List PyStr) :
    structLoop O i rs k (s :: rest) =
      match decideAction (wordCount s) i (rs k), rest with
      | .split, _ =>
        if wordCount s > 12 then O.splitS s ++ structLoop O i rs (k + 1) rest
        else s :: structLoop O i rs (k + 1) rest
      | .merge, [] => [s]
      | .merge, next :: rest2 =>
        O.mergeS s next :: structLoop O i rs (k + 1) rest2
      | .paraphrase, _ => O.paraS s :: structLoop O i rs (k + 1) rest
      | .keep, _ => s :: structLoop O i rs (k + 1) rest := by
  cases hA : decideAction (wordCount s) i (rs k) <;> cases rest <;>
    simp [structLoop, hA]

/-- C3 counterexample: a last sentence of 1 word at intensity 1 with
draw 0.4 satisfies the claim's paraphrase rule (`r < paraphrase
threshold`, no next sentence), but the code decides "merge" without the
next-sentence check (structure.py 113-114) and the loop's `else` then
keeps the sentence unchanged (structure.py 66, 79-82) — it is not
paraphrased. -/
theorem structure_decision_counterexample :
    specClaimedAction 1 false 1 (2 / 5) = SAction.paraphrase ∧
    structLoop ⟨fun s => [s], fun a b => a ++ b, fun s => 'P' :: s⟩
      1 (fun _ => 2 / 5) 0 [['h', 'i']] = [['h', 'i']] ∧
    (['P', 'h', 'i'] : PyStr) ≠ ['h', 'i'] := by
  refine ⟨?_, ?_, by decide⟩
  · rw [specClaimedAction, if_neg (by norm_num), if_neg (by simp),
      if_pos (by norm_num [paraphraseThreshold, mergeThreshold, splitThreshold])]
  · rw [structLoop_cons_eq]
    have hwc : wordCount ['h', 'i'] = 1 := by decide
    have hact : decideAction (wordCount ['h', 'i']) 1 ((fun _ : ℕ => (2 : ℚ) / 5) 0)
        = .merge := by
      rw [decideAction, if_neg (by rw [hwc]; norm_num),
        if_pos ⟨by rw [hwc]; norm_num, by norm_num [mergeThreshold, splitThreshold]⟩]
    rw [hact]

/-- C3 (amended): the loop takes the first matching rule in priority
order split → merge → paraphrase → keep with the claimed thresholds,
except that the merge rule is decided *without* checking for a next
sentence: when it fires on the last sentence, the sentence is kept
unchanged (not paraphrased, even when `r` is below the paraphrase
threshold). -/
theorem structure_decision_policy_amended (O : StructOracles) (i : ℚ)
    (rs : ℕ → ℚ) (k : ℕ) (s : PyStr) :
    (∀ next rest, structLoop O i rs k (s :: next :: rest) =
      if wordCount s > 20 ∧ rs k < splitThreshold i then
        O.splitS s ++ structLoop O i rs (k + 1) (next :: rest)
      else if wordCount s < 10 ∧ rs k < mergeThreshold i then
        O.mergeS s next :: structLoop O i rs (k + 1) rest
      else if rs k < paraphraseThreshold i then
        O.paraS s :: structLoop O i rs (k + 1) (next :: rest)
      else s :: structLoop O i rs (k + 1) (next :: rest)) ∧
    (structLoop O i rs k [s] =
      if wordCount s > 20 ∧ rs k < splitThreshold i then O.splitS s
      else if rs k < paraphraseThreshold i ∧
          ¬(wordCount s < 10 ∧ rs k < mergeThreshold i) then [O.paraS s]
      else [s]) := by
  constructor
  · intro next rest
    rw [structLoop_cons_eq]
    by_cases h1 : wordCount s > 20 ∧ rs k < splitThreshold i
    · have ha : decideAction (wordCount s) i (rs k) = .split := by
        rw [decideAction, if_pos h1]
      rw [ha, if_pos h1]
      exact if_pos (by omega)
    · rw [if_neg h1]
      by_cases h2 : wordCount s < 10 ∧ rs k < mergeThreshold i
      · have ha : decideAction (wordCount s) i (rs k) = .merge := by
          rw [decideAction, if_neg h1, if_pos h2]
        rw [ha, if_pos h2]
      · rw [if_neg h2]
        by_cases h3 : rs k < paraphraseThreshold i
        · have ha : decideAction (wordCount s) i (rs k) = .paraphrase := by
            rw [decideAction, if_neg h1, if_neg h2, if_pos h3]
          rw [ha, if_pos h3]
        · have ha : decideAction (wordCount s) i (rs k) = .keep := by
            rw [decideAction, if_neg h1, if_neg h2, if_neg h3]
          rw [ha, if_neg h3]
  · rw [structLoop_cons_eq]
    by_cases h1 : wordCount s > 20 ∧ rs k < splitThreshold i
    · have ha : decideAction (wordCount s) i (rs k) = .split := by
        rw [decideAction, if_pos h1]
      rw [ha]
      dsimp only
      rw [if_pos (show wordCount s > 12 by omega), if_pos h1]
      simp [structLoop]
    · rw [if_neg h1]
      by_cases h2 : wordCount s < 10 ∧ rs k < mergeThreshold i
      · have ha : decideAction (wordCount s) i (rs k) = .merge := by
          rw [decideAction, if_neg h1, if_pos h2]
        rw [ha]
        dsimp only
        rw [if_neg (fun hc => hc.2 h2)]
      · by_cases h3 : rs k < paraphraseThreshold i
        · have ha : decideAction (wordCount s) i (rs k) = .paraphrase := by
            rw [decideAction, if_neg h1, if_neg h2, if_pos h3]
          rw [ha]
          dsimp only
          rw [if_pos ⟨h3, h2⟩]
          simp [structLoop]
        · have ha : decideAction (wordCount s) i (rs k) = .keep := by
            rw [decideAction, if_neg h1, if_neg h2, if_neg h3]
          rw [ha]
          dsimp only
          rw [if_neg (fun hc => h3 hc.1)]
          simp [structLoop]

/-! ### C8 — intensity 0 structural identity (confirmed) -/

/-- At intensity 0, every draw `r ∈ [0,1)` yields `keep`: all three
thresholds are `0` and `r < 0` is impossible. -/
theorem decideAction_zero_keep (wc : ℕ) (r : ℚ) (hr : 0 ≤ r) :
    decideAction wc 0 r = .keep := by
  rw [decideAction, if_neg, if_neg, if_neg]
  · rw [paraphraseThreshold, mergeThreshold, splitThreshold]
    intro h
    linarith
  · rw [mergeThreshold, splitThreshold]
    rintro ⟨-, h⟩
    linarith
  · rw [splitThreshold]
    rintro ⟨-, h⟩
    linarith

/-- At intensity 0 the per-sentence loop keeps every sentence. -/
theorem structLoop_zero_id (O : StructOracles) (rs : ℕ → ℚ)
    (hr : ∀ j, 0 ≤ rs j) : ∀ (k : ℕ) (ss : List PyStr),
    structLoop O 0 rs k ss = ss := by
  intro k ss
  induction ss generalizing k with
  | nil => rfl
  | cons s rest ih =>
    rw [structLoop_cons_eq, decideAction_zero_keep _ _ (hr k)]
    dsimp only
    rw [ih]

/-- C8: at intensity 0.0, for every input that segments into 2 or more
sentences, the structural stage's output is the segmented sentences
unchanged, in order, joined with single spaces — independent of all
three rewriting oracles and of the reorder draws (so no delegate call
can influence the result); for single-sentence input the output is the
unchanged text unless the word count exceeds 15, in which case it is
the joined result of the one permitted split call. -/
theorem structure_intensity_zero (O : StructOracles) (draws : ℕ → ℕ × ℕ)
    (rs : ℕ → ℚ) (text : PyStr) (hr : ∀ j, 0 ≤ rs j) :
    structTransform O draws 0 rs text =
      if (splitSentences text).length ≤ 1 then
        (if wordCount text > 15 then joinSpace (O.splitS text) else text)
      else joinSpace (splitSentences text) := by
  rw [structTransform]
  by_cases h1 : (splitSentences text).length ≤ 1
  · rw [if_pos h1, if_pos h1]
  · rw [if_neg h1, if_neg h1, structLoop_zero_id O rs hr, maybeReorder,
      if_neg (by rintro ⟨h, -⟩; norm_num at h)]

/-- C8 witness: a concrete 3-sentence input at intensity 0 passes
through unchanged (up to the single-space join of its sentences). -/
theorem structure_intensity_zero_witness :
    2 ≤ (splitSentences "Aa. Bb. Cc.".data).length ∧
    structTransform ⟨fun s => [s], fun a b => a ++ b, fun s => 'P' :: s⟩
        (fun _ => (0, 0)) 0 (fun _ => 0) "Aa. Bb. Cc.".data =
      joinSpace (splitSentences "Aa. Bb. Cc.".data) := by
  refine ⟨by decide, ?_⟩
  rw [structure_intensity_zero _ _ _ _ (fun _ => le_refl 0)]
  rw [if_neg (by decide)]

/-! ### C5 — pipeline stage order and before/after metrics (confirmed) -/

/-- C5: for every enabled-stage subset the pipeline applies exactly the
enabled stages in the fixed order structure → vocabulary → noise, each
stage consuming the previous stage's output; it returns the
pre-pipeline text, the final output, and the applied-stage names in
that fixed order, and its response metrics are computed from the
pre-pipeline text and the post-pipeline text. -/
theorem transform_pipeline_order (structF vocabF noiseF : PyStr → ℚ → PyStr)
    (opts : TransformOptions) (i : ℚ) (text : PyStr) :
    (transformText structF vocabF noiseF opts i text).original = text ∧
    (transformText structF vocabF noiseF opts i text).applied_transforms =
      (if opts.structureOpt then ["structure"] else []) ++
      (if opts.vocabulary then ["vocabulary"] else []) ++
      (if opts.noise then ["noise"] else []) ∧
    ((transformText structF vocabF noiseF opts i text).transformed =
      (let t1 := if opts.structureOpt then structF text i else text
       let t2 := if opts.vocabulary then vocabF t1 i else t1
       if opts.noise then noiseF t2 i else t2)) ∧
    ((transformText structF vocabF noiseF opts i text).metrics =
      (let t3 := (transformText structF vocabF noiseF opts i text).transformed
       { original_sentence_count := (splitSentences text).length
         transformed_sentence_count := (splitSentences t3).length
         original_avg_length :=
           (calculateP text (splitSentences text)).avg_sentence_length
         transformed_avg_length :=
           (calculateP t3 (splitSentences t3)).avg_sentence_length
         original_length_std :=
           (calculateP text (splitSentences text)).sentence_length_std
         transformed_length_std :=
           (calculateP t3 (splitSentences t3)).sentence_length_std
         vocabulary_diversity_change :=
           (calculateP t3 (splitSentences t3)).vocabulary_diversity -
             (calculateP text (splitSentences text)).vocabulary_diversity })) := by
  obtain ⟨bs, bv, bn⟩ := opts
  cases bs <;> cases bv <;> cases bn <;>
    exact ⟨rfl, rfl, rfl, rfl⟩

/-! ### C6 — burstiness statistic (confirmed) -/

/-- Mean of a list of values that are all at least 1 is at least 1. -/
theorem one_le_meanQ (l : List ℚ) (hne : l ≠ []) (h : ∀ x ∈ l, 1 ≤ x) :
    1 ≤ meanQ l := by
  have hlen : 0 < l.length := List.length_pos.mpr hne
  have hsum : (l.length : ℚ) ≤ l.sum := by
    have := List.card_nsmul_le_sum l 1 h
    simpa using this
  rw [meanQ, if_neg hne]
  rw [one_le_div (by exact_mod_cast hlen)]
  exact hsum

/-- Every `Counter` frequency value is at least 1. -/
theorem one_le_freqValues (ws : List PyStr) :
    ∀ x ∈ freqValues ws, 1 ≤ x := by
  intro x hx
  rw [freqValues] at hx
  obtain ⟨w, hw, rfl⟩ := List.mem_map.mp hx
  have : 0 < ws.count w := List.count_pos_iff.mpr (List.mem_dedup.mp hw)
  exact_mod_cast this

/-- C6: the burstiness of a token list equals `(σ−μ)/(σ+μ)` over the
token-frequency values, with value 0 when there are fewer than 2
distinct tokens or `σ+μ = 0`; for at least 2 distinct tokens the value
lies in `[-1, 1]`. -/
theorem burstiness_characterization (ws : List PyStr) :
    (burstinessR ws =
      if distinctCount ws < 2 then 0
      else if stdR (freqValues ws) + (meanQ (freqValues ws) : ℝ) = 0 then 0
      else (stdR (freqValues ws) - (meanQ (freqValues ws) : ℝ)) /
        (stdR (freqValues ws) + (meanQ (freqValues ws) : ℝ))) ∧
    (2 ≤ distinctCount ws →
      -1 ≤ burstinessR ws ∧ burstinessR ws ≤ 1) := by
  have hlen : (freqValues ws).length = distinctCount ws := by
    rw [freqValues, distinctCount, List.length_map]
  have main : ∀ h2 : ¬distinctCount ws < 2,
      0 < stdR (freqValues ws) + (meanQ (freqValues ws) : ℝ) := by
    intro h2
    have hne : freqValues ws ≠ [] := by
      intro hc
      rw [← hlen, hc] at h2
      exact h2 (by simp)
    have hμ : (1 : ℝ) ≤ (meanQ (freqValues ws) : ℝ) := by
      exact_mod_cast one_le_meanQ _ hne (one_le_freqValues ws)
    have hσ : 0 ≤ stdR (freqValues ws) := Real.sqrt_nonneg _
    linarith
  constructor
  · by_cases hws : ws = []
    · subst hws
      rw [burstinessR, if_pos rfl, if_pos (by decide)]
    · rw [burstinessR, if_neg hws]
      dsimp only
      by_cases h2 : distinctCount ws < 2
      · rw [if_pos (by rw [hlen]; exact h2), if_pos h2]
      · have hpos := main h2
        rw [if_neg (by rw [hlen]; exact h2), if_neg h2,
          if_neg (by intro hc; rw [add_comm] at hc; exact (ne_of_gt hpos) hc),
          if_neg (ne_of_gt hpos)]
  · intro h2
    have hpos := main (by omega)
    have hne : ws ≠ [] := by
      intro hc
      subst hc
      rw [distinctCount] at h2
      simp at h2
    have hσ : 0 ≤ stdR (freqValues ws) := Real.sqrt_nonneg _
    have hμ : (0 : ℝ) ≤ (meanQ (freqValues ws) : ℝ) := by
      have : (1 : ℝ) ≤ (meanQ (freqValues ws) : ℝ) := by
        exact_mod_cast one_le_meanQ _
          (by rw [← List.length_pos, hlen]; omega) (one_le_freqValues ws)
      linarith
    have hb : burstinessR ws =
        (stdR (freqValues ws) - (meanQ (freqValues ws) : ℝ)) /
          (stdR (freqValues ws) + (meanQ (freqValues ws) : ℝ)) := by
      rw [burstinessR, if_neg hne]
      dsimp only
      rw [if_neg (by rw [hlen]; omega),
        if_neg (by intro hc; rw [add_comm] at hc; exact (ne_of_gt hpos) hc)]
    rw [hb]
    constructor
    · rw [le_div_iff₀ hpos]
      linarith
    · rw [div_le_one hpos]
      linarith

/-- C6 witness: the token list `["a", "b"]` has 2 distinct tokens and
its burstiness lies in `[-1, 1]`. -/
theorem burstiness_characterization_witness :
    2 ≤ distinctCount [['a'], ['b']] ∧
    -1 ≤ burstinessR [['a'], ['b']] ∧ burstinessR [['a'], ['b']] ≤ 1 :=
  ⟨by decide, (burstiness_characterization [['a'], ['b']]).2 (by decide)⟩

/-! ### C7 — the metrics engine is total (confirmed) -/

/-- Helper `_mean` never raises: the division is guarded by the empty check. -/
theorem meanM_eq (l : List ℚ) : meanM l = some (meanQ l) := by
  by_cases h : l = []
  · subst h
    rfl
  · rw [meanM, if_neg h, safeDivQ,
      if_neg (by exact_mod_cast (List.length_pos.mpr h).ne'), meanQ, if_neg h]

/-- Helper `_variance` never raises: the division is guarded by the `< 2`
check. -/
theorem varM_eq (l : List ℚ) : varM l = some (varQ l) := by
  by_cases h : l.length < 2
  · rw [varM, if_pos h, varQ, if_pos h]
  · have hne : l ≠ [] := by
      intro hc
      subst hc
      simp at h
    rw [varM, if_neg h, meanM_eq, Option.some_bind, safeDivQ,
      if_neg (by exact_mod_cast (List.length_pos.mpr hne).ne'), varQ, if_neg h]

/-- The population variance is non-negative. -/
theorem varQ_nonneg (l : List ℚ) : 0 ≤ varQ l := by
  rw [varQ]
  split
  · exact le_refl 0
  · apply div_nonneg
    · exact List.sum_nonneg fun x hx => by
        obtain ⟨y, -, rfl⟩ := List.mem_map.mp hx
        positivity
    · positivity

/-- Helper `_std` never raises: `math.sqrt` is applied to a non-negative
variance. -/
theorem stdM_eq (l : List ℚ) : stdM l = some (stdR l) := by
  rw [stdM, varM_eq, Option.some_bind, safeSqrt,
    if_neg (not_lt.mpr (varQ_nonneg l)), stdR]

/-- Helper `_calculate_burstiness` never raises: the division is guarded by
the `mean + std == 0` check. -/
theorem burstinessM_eq (ws : List PyStr) :
    burstinessM ws = some (burstinessR ws) := by
  by_cases hws : ws = []
  · subst hws
    rfl
  · rw [burstinessM, if_neg hws, burstinessR, if_neg hws]
    dsimp only
    by_cases h2 : (freqValues ws).length < 2
    · rw [if_pos h2, if_pos h2]
    · rw [if_neg h2, if_neg h2, meanM_eq, Option.some_bind, stdM_eq,
        Option.some_bind]
      by_cases h0 : (meanQ (freqValues ws) : ℝ) + stdR (freqValues ws) = 0
      · rw [if_pos h0, if_pos h0]
      · rw [if_neg h0, if_neg h0,
          if_neg (by intro hc; rw [add_comm] at hc; exact h0 hc)]

/-- The `max`/`min` calls never raise: they are guarded by the empty
check. -/
theorem rangeM_eq (l : List ℕ) :
    rangeM l = some (if l = [] then 0 else (l.max?.getD 0) - (l.min?.getD 0)) := by
  cases l with
  | nil => rfl
  | cons a t => rfl

/-- C7: `calculate` is total — for every text and sentence list it
returns a complete metrics snapshot without raising (`calculateM`
models every raising operation in `Option`), with variance and standard
deviation 0 for fewer than 2 sentences, vocabulary diversity 0 when
there are no words, and sentence-length range 0 for an empty list. -/
theorem calculate_total (text : PyStr) (sentences : List PyStr) :
    calculateM text sentences = some (calculateP text sentences) ∧
    (sentences.length < 2 →
      (calculateP text sentences).sentence_length_variance = 0 ∧
      (calculateP text sentences).sentence_length_std = 0) ∧
    (pySplitWs (pyLower text) = [] →
      (calculateP text sentences).vocabulary_diversity = 0) ∧
    (sentences = [] →
      (calculateP text sentences).sentence_length_range = 0) := by
  have hlen : ((sentences.map wordCount).map (fun (n : ℕ) => (n : ℚ))).length
      = sentences.length := by
    rw [List.length_map, List.length_map]
  refine ⟨?_, ?_, ?_, ?_⟩
  · rw [calculateM, calculateP]
    have hdiv :
        (if pySplitWs (pyLower text) = [] then some (0 : ℚ)
          else safeDivQ ((pySplitWs (pyLower text)).dedup.length : ℚ)
            ((pySplitWs (pyLower text)).length : ℚ)) =
        some (if pySplitWs (pyLower text) = [] then (0 : ℚ)
          else ((pySplitWs (pyLower text)).dedup.length : ℚ) /
            ((pySplitWs (pyLower text)).length : ℚ)) := by
      by_cases hw : pySplitWs (pyLower text) = []
      · rw [if_pos hw, if_pos hw]
      · rw [if_neg hw, if_neg hw, safeDivQ,
          if_neg (by exact_mod_cast (List.length_pos.mpr hw).ne')]
    have hmean :
        (if (sentences.map wordCount).map (fun (n : ℕ) => (n : ℚ)) = [] then some (0 : ℚ)
          else meanM ((sentences.map wordCount).map (fun (n : ℕ) => (n : ℚ)))) =
        some (if (sentences.map wordCount).map (fun (n : ℕ) => (n : ℚ)) = [] then (0 : ℚ)
          else meanQ ((sentences.map wordCount).map (fun (n : ℕ) => (n : ℚ)))) := by
      split <;> simp [meanM_eq]
    have hstd :
        (if (sentences.map wordCount).map (fun (n : ℕ) => (n : ℚ)) = [] then some (0 : ℝ)
          else stdM ((sentences.map wordCount).map (fun (n : ℕ) => (n : ℚ)))) =
        some (if (sentences.map wordCount).map (fun (n : ℕ) => (n : ℚ)) = [] then (0 : ℝ)
          else stdR ((sentences.map wordCount).map (fun (n : ℕ) => (n : ℚ)))) := by
      split <;> simp [stdM_eq]
    have hvar :
        (if (sentences.map wordCount).map (fun (n : ℕ) => (n : ℚ)) = [] then some (0 : ℚ)
          else varM ((sentences.map wordCount).map (fun (n : ℕ) => (n : ℚ)))) =
        some (if (sentences.map wordCount).map (fun (n : ℕ) => (n : ℚ)) = [] then (0 : ℚ)
          else varQ ((sentences.map wordCount).map (fun (n : ℕ) => (n : ℚ)))) := by
      split <;> simp [varM_eq]
    rw [hmean, Option.some_bind, hstd, Option.some_bind, hdiv,
      Option.some_bind, burstinessM_eq, Option.some_bind, hvar,
      Option.some_bind, rangeM_eq, Option.some_bind]
  · intro h
    have hvq : varQ ((sentences.map wordCount).map (fun (n : ℕ) => (n : ℚ))) = 0 := by
      rw [varQ, if_pos (by rw [hlen]; exact h)]
    have hq : ((if ((sentences.map wordCount).map (fun (n : ℕ) => (n : ℚ))) = [] then 0
        else varQ ((sentences.map wordCount).map (fun (n : ℕ) => (n : ℚ)))) : ℚ) = 0 := by
      split
      · rfl
      · exact hvq
    have hs : (if ((sentences.map wordCount).map (fun (n : ℕ) => (n : ℚ))) = [] then (0 : ℝ)
        else stdR ((sentences.map wordCount).map (fun (n : ℕ) => (n : ℚ)))) = 0 := by
      split
      · rfl
      · rw [stdR, hvq]
        simp
    constructor
    · rw [calculateP]
      dsimp only
      rw [hq]
      simpa using pyRound_zero 2
    · rw [calculateP]
      dsimp only
      rw [hs]
      exact pyRound_zero 2
  · intro h
    rw [calculateP]
    dsimp only
    rw [if_pos h]
    simpa using pyRound_zero 4
  · intro h
    subst h
    rfl

/-- C7 witness: the empty text with the empty sentence list produces a
complete snapshot with all the zero fallbacks. -/
theorem calculate_total_witness :
    calculateM [] [] = some (calculateP [] []) ∧
    (calculateP [] []).sentence_length_variance = 0 ∧
    (calculateP [] []).sentence_length_std = 0 ∧
    (calculateP [] []).vocabulary_diversity = 0 ∧
    (calculateP [] []).sentence_length_range = 0 :=
  ⟨(calculate_total [] []).1,
   ((calculate_total [] []).2.1 (by decide)).1,
   ((calculate_total [] []).2.1 (by decide)).2,
   (calculate_total [] []).2.2.1 (by decide),
   (calculate_total [] []).2.2.2 rfl⟩

/-! ### C10 — partial reorder is a first/last-fixed permutation
(confirmed) -/

/-- Element counts agree between the two lawful `BEq` instances on
`PyStr` (the elementwise one and the one from decidable equality). -/
theorem count_beq_bridge (b : PyStr) (l : List PyStr) :
    @List.count PyStr instBEqOfDecidableEq b l =
      @List.count PyStr List.instBEq b l := by
  induction l with
  | nil => rfl
  | cons x t ih =>
    rw [@List.count_cons PyStr instBEqOfDecidableEq,
      @List.count_cons PyStr List.instBEq, ih]
    by_cases h : x = b
    · subst h
      simp
    · simp [h]

/-- A parallel-assignment swap at two distinct in-range indices
preserves every element count. -/
theorem pySwap_count (l : List PyStr) (i j : ℕ) (hi : i < l.length)
    (hj : j < l.length) (hij : i ≠ j) (b : PyStr) :
    (pySwap l i j).count b = l.count b := by
  have hgdj : l.getD j [] = l[j] := by
    simp [List.getD_eq_getElem?_getD, List.getElem?_eq_getElem hj]
  have hgdi : l.getD i [] = l[i] := by
    simp [List.getD_eq_getElem?_getD, List.getElem?_eq_getElem hi]
  have hlen' : j < (l.set i (l.getD j [])).length := by simpa using hj
  have hset : (l.set i (l.getD j []))[j] = l[j] := by
    rw [List.getElem_set_ne hij]
  have hmi : l[i] = b → 1 ≤ l.count b := fun he =>
    List.count_pos_iff.mpr (he ▸ List.getElem_mem hi)
  have hmj : l[j] = b → 1 ≤ l.count b := fun he =>
    List.count_pos_iff.mpr (he ▸ List.getElem_mem hj)
  rw [pySwap, List.count_set _ _ _ _ hlen', List.count_set _ _ _ _ hi,
    hset, hgdj, hgdi]
  simp only [beq_iff_eq]
  split_ifs with h1 h2 h3
  · have := hmi h1
    omega
  · have := hmi h1
    omega
  · have := hmj h3
    omega
  · omega

/-- A parallel-assignment swap at two distinct in-range indices is a
permutation. -/
theorem pySwap_perm (l : List PyStr) (i j : ℕ) (hi : i < l.length)
    (hj : j < l.length) (hij : i ≠ j) : List.Perm (pySwap l i j) l :=
  List.perm_iff_count.mpr fun b => by
    rw [count_beq_bridge, count_beq_bridge]
    exact pySwap_count l i j hi hj hij b

/-- One iteration of the reorder swap loop is a permutation when the
drawn indices are in range. -/
theorem applyDraw_perm (d : ℕ × ℕ) (l : List PyStr)
    (h1 : d.1 < l.length) (h2 : d.2 < l.length) :
    List.Perm (applyDraw d l) l := by
  rw [applyDraw]
  split_ifs with hl hd
  · exact pySwap_perm l d.1 d.2 h1 h2 hd
  · exact List.Perm.refl l
  · exact List.Perm.refl l

/-- The whole swap loop is a permutation when every drawn index is in
range (`random.randint(0, len(middle) - 1)` guarantees this). -/
theorem swapLoop_perm (draws : ℕ → ℕ × ℕ) :
    ∀ (n k : ℕ) (l : List PyStr),
      (∀ m, (draws m).1 < l.length ∧ (draws m).2 < l.length) →
      List.Perm (swapLoop draws k n l) l := by
  intro n
  induction n with
  | zero => intro k l _; exact List.Perm.refl l
  | succ n ih =>
    intro k l h
    rw [swapLoop]
    have hp : List.Perm (applyDraw (draws k) l) l :=
      applyDraw_perm (draws k) l (h k).1 (h k).2
    have hlen : (applyDraw (draws k) l).length = l.length := hp.length_eq
    exact (ih (k + 1) _ (fun m => by rw [hlen]; exact h m)).trans hp

/-- The first-element/interior/last-element decomposition used by
`_partial_reorder`. -/
theorem take_middle_drop (l : List PyStr) (h : l.length > 3) :
    l.take 1 ++ ((l.drop 1).dropLast ++ l.drop (l.length - 1)) = l := by
  have h2 : (l.drop 1).drop ((l.drop 1).length - 1) = l.drop (l.length - 1) := by
    rw [List.drop_drop, List.length_drop]
    congr 1
    omega
  rw [List.dropLast_eq_take, ← h2, List.take_append_drop, List.take_append_drop]

/-- The last sentence viewed through `drop (length - 1)`. -/
theorem getLast?_eq_drop (l : List PyStr) (h : l ≠ []) :
    l.getLast? = (l.drop (l.length - 1)).getLast? := by
  conv_lhs => rw [← List.take_append_drop (l.length - 1) l]
  rw [List.getLast?_append]
  have hne : l.drop (l.length - 1) ≠ [] := by
    intro hc
    rw [List.drop_eq_nil_iff] at hc
    have : 0 < l.length := List.length_pos.mpr h
    omega
  cases hd : l.drop (l.length - 1) with
  | nil => exact absurd hd hne
  | cons a t =>
    rw [List.getLast?_eq_getLast (a :: t) (by intro hc; cases hc)]
    rfl

/-- C10: partial reorder is applied only when `intensity > 0.6` and the
sentence count exceeds 3; in that case it performs
`⌊(n−2)·intensity·0.5⌋` swap draws among the interior sentences only,
keeps the first and last sentences in place, and returns a permutation
(same length) of its input, for every draw sequence whose indices are
in range. -/
theorem partial_reorder_spec (draws : ℕ → ℕ × ℕ) (i : ℚ) (l : List PyStr)
    (hd : ∀ m, (draws m).1 < l.length - 2 ∧ (draws m).2 < l.length - 2) :
    (¬(i > 6 / 10 ∧ l.length > 3) → maybeReorder draws i l = l) ∧
    (i > 6 / 10 → l.length > 3 →
      maybeReorder draws i l = partialReorder draws i l ∧
      numSwaps ((l.drop 1).dropLast).length i =
        ⌊((l.length : ℚ) - 2) * i * (1 / 2)⌋₊ ∧
      List.Perm (partialReorder draws i l) l ∧
      (partialReorder draws i l).length = l.length ∧
      (partialReorder draws i l).head? = l.head? ∧
      (partialReorder draws i l).getLast? = l.getLast?) := by
  constructor
  · intro h
    rw [maybeReorder, if_neg h]
  · intro hi hn
    have hm : ((l.drop 1).dropLast).length = l.length - 2 := by
      rw [List.length_dropLast, List.length_drop]
      omega
    have hperm : List.Perm
        (swapLoop draws 0 (numSwaps ((l.drop 1).dropLast).length i)
          ((l.drop 1).dropLast)) ((l.drop 1).dropLast) := by
      refine swapLoop_perm draws _ 0 _ (fun m => ?_)
      rw [hm]
      exact hd m
    have hpr : partialReorder draws i l =
        l.take 1 ++ (swapLoop draws 0 (numSwaps ((l.drop 1).dropLast).length i)
          ((l.drop 1).dropLast) ++ l.drop (l.length - 1)) := by
      rw [partialReorder, if_neg (by omega), List.append_assoc]
    have hal : List.Perm (partialReorder draws i l) l := by
      rw [hpr]
      have hstep : List.Perm
          (l.take 1 ++ (swapLoop draws 0 (numSwaps ((l.drop 1).dropLast).length i)
            ((l.drop 1).dropLast) ++ l.drop (l.length - 1)))
          (l.take 1 ++ ((l.drop 1).dropLast ++ l.drop (l.length - 1))) :=
        List.Perm.append_left _ (List.Perm.append_right _ hperm)
      rw [take_middle_drop l hn] at hstep
      exact hstep
    refine ⟨by rw [maybeReorder, if_pos ⟨hi, hn⟩], ?_, hal, hal.length_eq, ?_, ?_⟩
    · rw [hm, numSwaps, pyLoopCount_eq_natFloor,
        Nat.cast_sub (by omega : 2 ≤ l.length)]
      norm_num
    · rw [hpr]
      cases l with
      | nil => simp at hn
      | cons a t => rfl
    · rw [hpr, List.getLast?_append, List.getLast?_append]
      rw [getLast?_eq_drop l (by intro hc; rw [hc] at hn; simp at hn)]
      cases hdrop : l.drop (l.length - 1) with
      | nil =>
        have : 0 < l.length := by omega
        rw [List.drop_eq_nil_iff] at hdrop
        omega
      | cons a t =>
        rw [List.getLast?_eq_getLast (a :: t) (List.cons_ne_nil a t)]
        rfl

/-- C10 witness: a concrete 5-sentence list at intensity 0.8 with the
constant draw (0, 1) is permuted with first and last fixed. -/
theorem partial_reorder_spec_witness :
    maybeReorder (fun _ => (0, 1)) (8 / 10) [['a'], ['b'], ['c'], ['d'], ['e']]
        = partialReorder (fun _ => (0, 1)) (8 / 10)
            [['a'], ['b'], ['c'], ['d'], ['e']] ∧
    List.Perm (partialReorder (fun _ => (0, 1)) (8 / 10)
        [['a'], ['b'], ['c'], ['d'], ['e']]) [['a'], ['b'], ['c'], ['d'], ['e']] ∧
    (partialReorder (fun _ => (0, 1)) (8 / 10)
        [['a'], ['b'], ['c'], ['d'], ['e']]).head? = some ['a'] ∧
    (partialReorder (fun _ => (0, 1)) (8 / 10)
        [['a'], ['b'], ['c'], ['d'], ['e']]).getLast? = some ['e'] := by
  have h := partial_reorder_spec (fun _ => (0, 1)) (8 / 10)
    [['a'], ['b'], ['c'], ['d'], ['e']] (fun m => by
      refine ⟨?_, ?_⟩ <;> norm_num)
  have h2 := h.2 (by norm_num) (by decide)
  refine ⟨h2.1, h2.2.2.1, ?_, ?_⟩
  · rw [h2.2.2.2.2.1]
    rfl
  · rw [h2.2.2.2.2.2]
    rfl

/-! ### C9 — colloquial insertion (confirmed) -/

/-- One loop iteration preserves the sentence count. -/
theorem colloquialStep_length (m : PyStr) (pos : ℕ) (ss : List PyStr) :
    (colloquialStep m pos ss).length = ss.length := by
  rw [colloquialStep]
  split <;> simp

/-- One loop iteration leaves every other index unchanged. -/
theorem colloquialStep_getD_ne (m : PyStr) (pos : ℕ) (ss : List PyStr)
    (idx : ℕ) (h : idx ≠ pos) :
    (colloquialStep m pos ss).getD idx [] = ss.getD idx [] := by
  rw [colloquialStep]
  split
  · rfl
  · simp [List.getD_eq_getElem?_getD, List.getElem?_set_ne (Ne.symm h)]

/-- The `for pos in positions` loop of `_add_colloquial_touches`:
for distinct positions it preserves the sentence count, leaves
non-chosen indices unchanged, leaves chosen sentences that already
start with a marker unchanged, and prepends exactly one picked marker
to every other chosen in-range sentence. -/
theorem colloquialLoop_spec (pick : ℕ → PyStr) :
    ∀ (ps : List ℕ) (j : ℕ) (ss : List PyStr), ps.Nodup →
      ((colloquialLoop pick j ps ss).length = ss.length) ∧
      (∀ idx, idx ∉ ps →
        (colloquialLoop pick j ps ss).getD idx [] = ss.getD idx []) ∧
      (∀ idx ∈ ps, idx < ss.length →
        ((COLLOQUIAL_INSERTIONS.any fun c => c.isPrefixOf (ss.getD idx [])) = true →
          (colloquialLoop pick j ps ss).getD idx [] = ss.getD idx []) ∧
        ((COLLOQUIAL_INSERTIONS.any fun c => c.isPrefixOf (ss.getD idx [])) = false →
          ∃ jj, (colloquialLoop pick j ps ss).getD idx [] =
            prependMarker (pick jj) (ss.getD idx []))) := by
  intro ps
  induction ps with
  | nil =>
    intro j ss _
    exact ⟨rfl, fun _ _ => rfl, fun idx hm => absurd hm (List.not_mem_nil idx)⟩
  | cons pos more ih =>
    intro j ss hnd
    obtain ⟨hpos, hmore⟩ := List.nodup_cons.mp hnd
    have hstep := ih (j + 1) (colloquialStep (pick j) pos ss) hmore
    rw [colloquialLoop]
    refine ⟨hstep.1.trans (colloquialStep_length _ _ _), ?_, ?_⟩
    · intro idx hidx
      have h1 : idx ∉ more := fun hc => hidx (List.mem_cons_of_mem pos hc)
      have h2 : idx ≠ pos := fun hc => hidx (hc ▸ List.mem_cons_self idx more)
      rw [hstep.2.1 idx h1, colloquialStep_getD_ne _ _ _ _ h2]
    · intro idx hidx hlt
      rcases List.mem_cons.mp hidx with rfl | hin
      · have hunch : (colloquialLoop pick (j + 1) more
            (colloquialStep (pick j) idx ss)).getD idx [] =
            (colloquialStep (pick j) idx ss).getD idx [] :=
          hstep.2.1 idx hpos
        constructor
        · intro hpre
          rw [hunch, colloquialStep, if_pos hpre]
        · intro hpre
          refine ⟨j, ?_⟩
          rw [hunch, colloquialStep, if_neg (by rw [hpre]; exact Bool.false_ne_true)]
          simp [List.getD_eq_getElem?_getD, List.getElem?_set_self hlt]
      · have hne : idx ≠ pos := fun hc => hpos (hc ▸ hin)
        have hgd : (colloquialStep (pick j) pos ss).getD idx [] = ss.getD idx [] :=
          colloquialStep_getD_ne _ _ _ _ hne
        have hlt' : idx < (colloquialStep (pick j) pos ss).length := by
          rw [colloquialStep_length]
          exact hlt
        have hres := hstep.2.2 idx hin hlt'
        rw [hgd] at hres
        exact hres

/-- The head of a non-empty list through `getD`. -/
theorem head?_eq_getD (l : List PyStr) (h : l ≠ []) :
    l.head? = some (l.getD 0 []) := by
  cases l with
  | nil => exact absurd rfl h
  | cons a t => rfl

/-- C9: at 2 or more sentences, the colloquial-insertion step samples
`min(max(1, ⌊sentence_count·intensity·0.3⌋), sentence_count − 1)`
distinct positions from `1..end` (never index 0, so the first sentence
is returned unchanged), prepends a picked marker only to chosen
sentences that do not already start with a marker, and leaves every
non-chosen sentence unchanged; with fewer than 2 sentences the text is
returned unchanged.  The sampling hypotheses are the contract of
`random.sample(range(1, len(sentences)), k)`. -/
theorem colloquial_insertion_spec (sample : ℕ → ℕ → ℕ → List ℕ)
    (pick : ℕ → PyStr) (i : ℚ) (text : PyStr)
    (_hI : 6 / 10 < i)
    (hnodup : (sample 1 (splitSentences text).length
      (colloquialSampleSize (splitSentences text).length i)).Nodup)
    (hrange : ∀ p ∈ sample 1 (splitSentences text).length
        (colloquialSampleSize (splitSentences text).length i),
      1 ≤ p ∧ p < (splitSentences text).length) :
    ((splitSentences text).length < 2 →
      addColloquialTouches sample pick i text = text) ∧
    (2 ≤ (splitSentences text).length →
      colloquialSampleSize (splitSentences text).length i =
        min (max 1 ⌊((splitSentences text).length : ℚ) * i * (3 / 10)⌋₊)
          ((splitSentences text).length - 1) ∧
      (0 : ℕ) ∉ sample 1 (splitSentences text).length
        (colloquialSampleSize (splitSentences text).length i) ∧
      (addColloquialTouches sample pick i text =
        joinSpace (colloquialLoop pick 0
          (sample 1 (splitSentences text).length
            (colloquialSampleSize (splitSentences text).length i))
          (splitSentences text))) ∧
      ((colloquialLoop pick 0
          (sample 1 (splitSentences text).length
            (colloquialSampleSize (splitSentences text).length i))
          (splitSentences text)).length = (splitSentences text).length) ∧
      ((colloquialLoop pick 0
          (sample 1 (splitSentences text).length
            (colloquialSampleSize (splitSentences text).length i))
          (splitSentences text)).head? = (splitSentences text).head?) ∧
      (∀ idx, idx ∉ sample 1 (splitSentences text).length
          (colloquialSampleSize (splitSentences text).length i) →
        (colloquialLoop pick 0
          (sample 1 (splitSentences text).length
            (colloquialSampleSize (splitSentences text).length i))
          (splitSentences text)).getD idx [] = (splitSentences text).getD idx []) ∧
      (∀ idx ∈ sample 1 (splitSentences text).length
          (colloquialSampleSize (splitSentences text).length i),
        ((COLLOQUIAL_INSERTIONS.any fun c =>
            c.isPrefixOf ((splitSentences text).getD idx [])) = true →
          (colloquialLoop pick 0
            (sample 1 (splitSentences text).length
              (colloquialSampleSize (splitSentences text).length i))
            (splitSentences text)).getD idx []
            = (splitSentences text).getD idx []) ∧
        ((COLLOQUIAL_INSERTIONS.any fun c =>
            c.isPrefixOf ((splitSentences text).getD idx [])) = false →
          ∃ jj, (colloquialLoop pick 0
            (sample 1 (splitSentences text).length
              (colloquialSampleSize (splitSentences text).length i))
            (splitSentences text)).getD idx []
            = prependMarker (pick jj) ((splitSentences text).getD idx [])))) := by
  have hloop := colloquialLoop_spec pick
    (sample 1 (splitSentences text).length
      (colloquialSampleSize (splitSentences text).length i)) 0
    (splitSentences text) hnodup
  constructor
  · intro h
    rw [addColloquialTouches, if_pos h]
  · intro h2
    have h0 : (0 : ℕ) ∉ sample 1 (splitSentences text).length
        (colloquialSampleSize (splitSentences text).length i) := by
      intro hc
      exact absurd (hrange 0 hc).1 (by omega)
    refine ⟨?_, h0, ?_, hloop.1, ?_, hloop.2.1,
      fun idx hidx => hloop.2.2 idx hidx (hrange idx hidx).2⟩
    · rw [colloquialSampleSize, numInsertions, pyLoopCount_eq_natFloor]
    · rw [addColloquialTouches, if_neg (by omega)]
    · have hne : splitSentences text ≠ [] := by
        intro hc
        rw [hc] at h2
        simp at h2
      have hne' : colloquialLoop pick 0
          (sample 1 (splitSentences text).length
            (colloquialSampleSize (splitSentences text).length i))
          (splitSentences text) ≠ [] := by
        intro hc
        have := hloop.1
        rw [hc] at this
        exact hne (List.length_eq_zero.mp this.symm)
      rw [head?_eq_getD _ hne', head?_eq_getD _ hne, hloop.2.1 0 h0]

/-- C9 witness: a concrete 3-sentence input at intensity 0.7 with the
sampler returning position 1 and the marker "사실". -/
theorem colloquial_insertion_spec_witness :
    6 / 10 < (7 / 10 : ℚ) ∧
    2 ≤ (splitSentences "Aa. Bb. Cc.".data).length ∧
    colloquialSampleSize (splitSentences "Aa. Bb. Cc.".data).length (7 / 10) =
      min (max 1 ⌊((splitSentences "Aa. Bb. Cc.".data).length : ℚ) *
        (7 / 10) * (3 / 10)⌋₊) ((splitSentences "Aa. Bb. Cc.".data).length - 1) ∧
    addColloquialTouches (fun _ _ _ => [1]) (fun _ => ['사', '실']) (7 / 10)
        "Aa. Bb. Cc.".data =
      joinSpace (colloquialLoop (fun _ => ['사', '실']) 0 [1]
        (splitSentences "Aa. Bb. Cc.".data)) := by
  have h := colloquial_insertion_spec (fun _ _ _ => [1]) (fun _ => ['사', '실'])
    (7 / 10) "Aa. Bb. Cc.".data (by norm_num) (by decide)
    (fun p hp => by
      have hp1 : p = 1 := by simpa using hp
      subst hp1
      exact ⟨le_refl 1, by decide⟩)
  have h2 := h.2 (by decide)
  exact ⟨by norm_num, by decide, h2.1, h2.2.2.1⟩

end CopyMaker
